import Mathlib

/-!
Shallow embedding of the GaussianSpeechDetection signal-processing core:
the direct transform in `src/src/lib/FFT.ts` and the
`GaussianDFTAudioDetector` pipeline (framing, Hann windowing, noise-floor
estimation, decision-directed a-priori SNR estimation, and the
likelihood-ratio speech decision).  JavaScript numbers are modelled as
exact real numbers; a JavaScript expression that evaluates to `NaN`
(division `0/0` followed by `cos`) is modelled with `Option ℝ`, `none`
standing for the non-finite result.  Fallible operations (`throw`) are
modelled with `Option`, `none` standing for the raised error.
-/

open Real
open Classical

namespace Number

/-- JavaScript `Number.EPSILON`, the constant `2⁻⁵²` used by the detector as
the small positive epsilon substituted for zero denominators. -/
noncomputable def EPSILON : ℝ := 1 / 2 ^ 52

end Number

namespace FFT

/-- Real accumulator of `FFT.forward` at output index `k` (FFT.ts lines
27‑41): the accumulator is initialised with the input sample (`real[i] =
input[i]`, line 32) and the direct cosine sum is then added on top of it, so
it holds `x[k] + Σ_j x[j]·cos(2π·k·j/N)`. -/
noncomputable def forwardReal (x : List ℝ) (k : ℕ) : ℝ :=
  x.getD k 0 +
    ∑ j in Finset.range x.length,
      x.getD j 0 * Real.cos ((2 * π * k * j) / x.length)

/-- Imaginary accumulator of `FFT.forward` at output index `k` (FFT.ts lines
35‑41): `imag[i]` starts at `0` and the sine terms are subtracted, giving
`-Σ_j x[j]·sin(2π·k·j/N)`. -/
noncomputable def forwardImag (x : List ℝ) (k : ℕ) : ℝ :=
  - ∑ j in Finset.range x.length,
      x.getD j 0 * Real.sin ((2 * π * k * j) / x.length)

/-- Embedding of `FFT.forward` (FFT.ts lines 22‑49) in the size-matching
case: the returned magnitude vector, `magnitude[k] =
sqrt(real[k]² + imag[k]²)` over the accumulators above.  The transform size
is the input length (an input of any other length throws and is not
modelled here). -/
noncomputable def forward (x : List ℝ) : List ℝ :=
  (List.range x.length).map fun k =>
    Real.sqrt (forwardReal x k ^ 2 + forwardImag x k ^ 2)

/-- Real part of the discrete Fourier transform
`X[k] = Σ_j x[j]·e^{-2πi·jk/N}`: the plain cosine sum, with no extra term. -/
noncomputable def dftReal (x : List ℝ) (k : ℕ) : ℝ :=
  ∑ j in Finset.range x.length,
    x.getD j 0 * Real.cos ((2 * π * k * j) / x.length)

/-- Imaginary part of the discrete Fourier transform `X[k]`. -/
noncomputable def dftImag (x : List ℝ) (k : ℕ) : ℝ :=
  - ∑ j in Finset.range x.length,
      x.getD j 0 * Real.sin ((2 * π * k * j) / x.length)

/-- Magnitude vector `|X[k]|`, k = 0..N-1, of the discrete Fourier
transform: the value the specification ascribes to `forward`. -/
noncomputable def dftMagnitude (x : List ℝ) : List ℝ :=
  (List.range x.length).map fun k =>
    Real.sqrt (dftReal x k ^ 2 + dftImag x k ^ 2)

/-- Modelled from the spec: the fast radix-2 (Cooley-Tukey) transform of the
Transform Engine is absent from `src/` (only the direct reference transform
is there).  The spec defines its output by the same formula
`X[k] = Σ_j x[j]·e^{-2πi·jk/N}`, evaluated by radix-2 decimation, which in
exact real arithmetic computes exactly the discrete Fourier transform; the
fast variant's `forward` is therefore modelled as the DFT magnitude
vector. -/
noncomputable def fastForward (x : List ℝ) : List ℝ :=
  dftMagnitude x

/-- Tolerance relation of the spec: `1e-3` relative or `1e-4` absolute. -/
noncomputable def closeTo (a b : ℝ) : Prop :=
  |a - b| ≤ 1 / 10000 ∨ |a - b| ≤ (1 / 1000) * max |a| |b|

end FFT

namespace GaussianDFTAudioDetector

/-- JavaScript truthiness substitution `x || Number.EPSILON` applied to a
noise-power entry: `0` is falsy, any other number is itself. -/
noncomputable def orEPS (x : ℝ) : ℝ :=
  if x = 0 then Number.EPSILON else x

/-- Loop of `frameSignal` (part_000 lines 33‑36): iterates while
`i < signal.length - frameLength` (strict, as in the source), pushing
`signal.slice(i, i + frameLength)` and stepping `i` by `hopLength`.  `fuel`
bounds the number of iterations; for `hopLength ≥ 1` the loop runs at most
`signal.length` times, so callers pass `signal.length + 1`. -/
def frameLoop (frameLength hopLength : ℕ) (signal : List ℝ) :
    ℕ → ℕ → List (List ℝ)
  | 0, _ => []
  | fuel + 1, i =>
    if i < signal.length - frameLength then
      (signal.drop i).take frameLength ::
        frameLoop frameLength hopLength signal fuel (i + hopLength)
    else []

/-- Embedding of `GaussianDFTAudioDetector.frameSignal` (lines 27‑38):
throws (`none`) when the signal is shorter than one frame, otherwise runs
the slicing loop from offset `0`. -/
def frameSignal (frameLength hopLength : ℕ) (signal : List ℝ) :
    Option (List (List ℝ)) :=
  if signal.length < frameLength then none
  else some (frameLoop frameLength hopLength signal (signal.length + 1) 0)

/-- JavaScript division observed through the arithmetic that follows it: a
zero denominator yields `NaN` (`0/0`) or `±Infinity`, either of which
poisons the subsequent cosine and products; modelled as `none`. -/
noncomputable def jsDiv (a b : ℝ) : Option ℝ :=
  if b = 0 then none else some (a / b)

/-- Hann coefficient of `applyWindow` (line 44):
`0.5·(1 − cos((2π·i)/(L−1)))`, the division taken with JavaScript
semantics (for `L = 1` it is `0/0`). -/
noncomputable def hannCoeff (L i : ℕ) : Option ℝ :=
  (jsDiv (2 * π * i) ((L : ℝ) - 1)).map fun t => 0.5 * (1 - Real.cos t)

/-- Embedding of `applyWindow` (lines 40‑47): elementwise product of the
frame with the Hann coefficients; an entry is `none` when its coefficient
is not a finite number. -/
noncomputable def applyWindow (frame : List ℝ) : List (Option ℝ) :=
  (List.range frame.length).map fun i =>
    (hannCoeff frame.length i).map fun w => frame.getD i 0 * w

/-- Accumulation and average of `estimateNoiseVariance` (lines 63‑71) over
the first `k` frames: `variance[j] = (Σ_{i<k} features[i][j]²) / k`, the
vector length being the first frame's length (`features[0].length`). -/
noncomputable def noiseMean (features : List (List ℝ)) (k : ℕ) : List ℝ :=
  (List.range (features.getD 0 []).length).map fun j =>
    (∑ i in Finset.range k, ((features.getD i []).getD j 0) ^ 2) / k

/-- Embedding of `estimateNoiseVariance` (lines 57‑72): uses
`min(features.length, nNoiseFrames)` leading frames and throws (`none`)
when that count is zero. -/
noncomputable def estimateNoiseVariance (features : List (List ℝ))
    (nNoiseFrames : ℕ) : Option (List ℝ) :=
  if min features.length nNoiseFrames = 0 then none
  else some (noiseMean features (min features.length nNoiseFrames))

/-- Initial a-priori SNR of `estimatePrioriSNR` (lines 78‑80), per bin `j`:
`γ = y² / (sigmaN[j] || ε)` and `ξ[0][j] = max(γ − 1, 0)`. -/
noncomputable def snrFirst (frame sigmaN : List ℝ) : List ℝ :=
  (List.range frame.length).map fun j =>
    max ((frame.getD j 0) ^ 2 / orEPS (sigmaN.getD j 0) - 1) 0

/-- One step of the decision-directed recursion (lines 88‑94), per bin `j`
with `σ = sigmaN[j] || ε`: `ampPrev = sqrt(ξprev[j]·σ)`, `γ = y²/σ`, and
the new value `α·(ampPrev²/σ) + (1−α)·max(γ − 1, 0)`. -/
noncomputable def snrStep (alpha : ℝ) (sigmaN prevXi frame : List ℝ) :
    List ℝ :=
  (List.range frame.length).map fun j =>
    alpha * (Real.sqrt (prevXi.getD j 0 * orEPS (sigmaN.getD j 0)) ^ 2 /
        orEPS (sigmaN.getD j 0)) +
      (1 - alpha) * max ((frame.getD j 0) ^ 2 / orEPS (sigmaN.getD j 0) - 1) 0

/-- Frames `m ≥ 1` of `estimatePrioriSNR` (lines 83‑97): each new vector is
computed from the immediately preceding one and pushed in order. -/
noncomputable def snrRec (alpha : ℝ) (sigmaN : List ℝ) (prev : List ℝ) :
    List (List ℝ) → List (List ℝ)
  | [] => []
  | f :: fs =>
    snrStep alpha sigmaN prev f ::
      snrRec alpha sigmaN (snrStep alpha sigmaN prev f) fs

/-- Embedding of `estimatePrioriSNR` (lines 74‑100).  An empty feature list
is mapped to `[]` (the source would fault reading `features[0]`; the claims
only concern non-empty inputs). -/
noncomputable def estimatePrioriSNR (features : List (List ℝ))
    (sigmaN : List ℝ) (alpha : ℝ) : List (List ℝ) :=
  match features with
  | [] => []
  | f0 :: rest =>
    snrFirst f0 sigmaN :: snrRec alpha sigmaN (snrFirst f0 sigmaN) rest

/-- Per-bin likelihood of the decision loop of `detectSpeech` (lines
125‑130): `σS = ξ[m][j]·sigmaN[j]` (no substitution in the product),
`γ = y²/(sigmaN[j] || ε)`, `xiJ = σS/(sigmaN[j] || ε)`, and
`L = (1/(1+xiJ))·exp(γ·xiJ/(1+xiJ))`. -/
noncomputable def binL (xiMJ sigmaNJ y : ℝ) : ℝ :=
  (1 / (1 + xiMJ * sigmaNJ / orEPS sigmaNJ)) *
    Real.exp ((y ^ 2 / orEPS sigmaNJ) * (xiMJ * sigmaNJ / orEPS sigmaNJ) /
      (1 + xiMJ * sigmaNJ / orEPS sigmaNJ))

/-- Accumulated log-likelihood of one frame (lines 122‑132):
`Σ_j log(max(L_j, Number.EPSILON))` over the frame's bins. -/
noncomputable def frameSumLogL (frame xiM sigmaN : List ℝ) : ℝ :=
  ∑ j in Finset.range frame.length,
    Real.log (max (binL (xiM.getD j 0) (sigmaN.getD j 0) (frame.getD j 0))
      Number.EPSILON)

/-- Per-frame average log-likelihoods of `detectSpeech` (lines 120‑135):
the accumulated sum divided by the frame's bin count. -/
noncomputable def logLikelihoods (features xi : List (List ℝ))
    (sigmaN : List ℝ) : List ℝ :=
  (List.range features.length).map fun m =>
    frameSumLogL (features.getD m []) (xi.getD m []) sigmaN /
      (features.getD m []).length

/-- Per-frame boolean decisions of `detectSpeech` (line 136):
`avgLogL > Math.log(threshold)`. -/
noncomputable def speechFrames (features xi : List (List ℝ))
    (sigmaN : List ℝ) (threshold : ℝ) : List Bool :=
  (logLikelihoods features xi sigmaN).map fun a =>
    if Real.log threshold < a then true else false

/-- The decision stage of `detectSpeech` (lines 117‑139), taking the
already-computed spectra, SNR estimates and noise power, and returning the
pair `(speechFrames, logLikelihood)`. -/
noncomputable def detectSpeechLoop (features xi : List (List ℝ))
    (sigmaN : List ℝ) (threshold : ℝ) : List Bool × List ℝ :=
  (speechFrames features xi sigmaN threshold, logLikelihoods features xi sigmaN)

/-- Default decision threshold of `detectSpeech` (line 102). -/
noncomputable def defaultThreshold : ℝ := 0.5

end GaussianDFTAudioDetector

theorem Number.EPSILON_pos : 0 < Number.EPSILON := by
  unfold Number.EPSILON
  positivity

theorem Number.EPSILON_lt_one : Number.EPSILON < 1 := by
  unfold Number.EPSILON
  rw [div_lt_one (by positivity)]
  norm_num

/-- Evaluation of `(List.range n).map f` at an index, with default `d` out of
range.  Used to read off per-bin values of vectors built index-wise. -/
theorem List.getD_range_map {α : Type} (f : ℕ → α) (n j : ℕ) (d : α) :
    ((List.range n).map f).getD j d = if j < n then f j else d := by
  by_cases h : j < n
  · simp [List.getD_eq_getElem?_getD, List.getElem?_range h, h]
  · rw [List.getD_eq_getElem?_getD, List.getElem?_eq_none (by simpa using Nat.le_of_not_lt h)]
    simp [h]

theorem GaussianDFTAudioDetector.orEPS_pos {x : ℝ} (hx : 0 ≤ x) :
    0 < GaussianDFTAudioDetector.orEPS x := by
  unfold GaussianDFTAudioDetector.orEPS
  split
  · exact Number.EPSILON_pos
  · exact lt_of_le_of_ne hx (by tauto)

/-- Claim C1 states that `forward` returns exactly the DFT magnitudes
`|X[k]|`, the real part of `X[k]` being exactly the cosine sum with no
extra term; on the frame `[1, 0]` of size `N = 2` the code instead returns
`[2, 1]` (the input sample is added into the real accumulator before the
cosine sum), while the DFT magnitude vector is `[1, 1]`. -/
theorem c1_fft_forward_eval :
    FFT.forward [1, 0] = [2, 1] ∧ FFT.dftMagnitude [1, 0] = [1, 1] ∧
      FFT.forward [1, 0] ≠ FFT.dftMagnitude [1, 0] := by
  have h1 : FFT.forward [1, 0] = [2, 1] := by
    show ((List.range 2).map _) = _
    rw [show List.range 2 = [0, 1] from rfl]
    simp only [List.map_cons, List.map_nil, FFT.forwardReal, FFT.forwardImag]
    norm_num [Finset.sum_range_succ, List.getD]
    rw [show (4 : ℝ) = 2 ^ 2 by norm_num, Real.sqrt_sq (by norm_num : (0:ℝ) ≤ 2)]
  have h2 : FFT.dftMagnitude [1, 0] = [1, 1] := by
    show ((List.range 2).map _) = _
    rw [show List.range 2 = [0, 1] from rfl]
    simp only [List.map_cons, List.map_nil, FFT.dftReal, FFT.dftImag]
    norm_num [Finset.sum_range_succ, List.getD]
  refine ⟨h1, h2, ?_⟩
  rw [h1, h2]
  intro h
  simp only [List.cons.injEq] at h
  norm_num at h

/-- Claim C2 states that a signal of length `L ≥ F` yields
`floor((L−F)/h)+1` frames, in particular exactly one frame when `L = F`;
with `frameLength = 4`, `hopLength = 2` and the length-4 signal
`[0, 0, 0, 0]` the code instead returns zero frames (the loop guard is the
strict `i < signal.length - frameLength`), while the claimed count is
`(4−4)/2 + 1 = 1`. -/
theorem c2_frameSignal_eval :
    GaussianDFTAudioDetector.frameSignal 4 2 [0, 0, 0, 0] = some [] ∧
      ([] : List (List ℝ)).length = 0 ∧ (4 - 4) / 2 + 1 = 1 := by
  refine ⟨rfl, rfl, by norm_num⟩

/-- Claim C6 states that `applyWindow` on a frame of length `L = 1` does
not divide by zero and returns a well-defined value, never NaN; on the
frame `[1]` the code computes the coefficient `0.5·(1 − cos(0/0))`, which
is NaN (modelled as `none`). -/
theorem c6_applyWindow_eval :
    GaussianDFTAudioDetector.applyWindow [1] = [none] := by
  unfold GaussianDFTAudioDetector.applyWindow
  rw [show ([1] : List ℝ).length = 1 from rfl, show List.range 1 = [0] from rfl]
  simp [GaussianDFTAudioDetector.hannCoeff, GaussianDFTAudioDetector.jsDiv]

/-- Claim C10: in the decision step, a bin whose noise power is exactly
zero has per-bin likelihood exactly 1 (`σS = ξ·0 = 0` forces `xiJ = 0` and
a zero exponent), so its term `log(max(L, ε))` in the frame's
log-likelihood sum is exactly 0, whatever the spectrum value `y` and the
SNR estimate `ξ` are. -/
theorem c10_zero_noise_bin_is_neutral (xiMJ y sigmaNJ : ℝ)
    (h : sigmaNJ = 0) :
    GaussianDFTAudioDetector.binL xiMJ sigmaNJ y = 1 ∧
      Real.log (max (GaussianDFTAudioDetector.binL xiMJ sigmaNJ y)
        Number.EPSILON) = 0 := by
  subst h
  have hL : GaussianDFTAudioDetector.binL xiMJ 0 y = 1 := by
    unfold GaussianDFTAudioDetector.binL
    rw [mul_zero, zero_div]
    norm_num
  refine ⟨hL, ?_⟩
  rw [hL, max_eq_left Number.EPSILON_lt_one.le, Real.log_one]

/-- Witness for C10 at `ξ = 5`, `y = 3`, zero noise power. -/
theorem c10_zero_noise_bin_is_neutral_witness :
    GaussianDFTAudioDetector.binL 5 0 3 = 1 ∧
      Real.log (max (GaussianDFTAudioDetector.binL 5 0 3)
        Number.EPSILON) = 0 :=
  c10_zero_noise_bin_is_neutral 5 3 0 rfl

/-- Claim C7: `estimateNoiseVariance` fails (`none`) exactly when
`min(spectra.length, nNoiseFrames)` is zero; otherwise it returns, per bin
`j`, the arithmetic mean of the squared magnitudes of bin `j` over exactly
the first `min(spectra.length, nNoiseFrames)` spectra (restricting the sum
to `take k` leaves it unchanged). -/
theorem c7_estimateNoiseVariance_correct (features : List (List ℝ)) (n : ℕ) :
    (GaussianDFTAudioDetector.estimateNoiseVariance features n = none ↔
      min features.length n = 0) ∧
    (0 < min features.length n →
      GaussianDFTAudioDetector.estimateNoiseVariance features n =
        some (GaussianDFTAudioDetector.noiseMean features
          (min features.length n))) ∧
    ∀ k j, j < (features.getD 0 []).length →
      (GaussianDFTAudioDetector.noiseMean features k).getD j 0 =
        (∑ i in Finset.range k,
          (((features.take k).getD i []).getD j 0) ^ 2) / k := by
  refine ⟨?_, ?_, ?_⟩
  · unfold GaussianDFTAudioDetector.estimateNoiseVariance
    split
    · simp_all
    · simp_all
  · intro hk
    unfold GaussianDFTAudioDetector.estimateNoiseVariance
    rw [if_neg (Nat.pos_iff_ne_zero.mp hk)]
  · intro k j hj
    unfold GaussianDFTAudioDetector.noiseMean
    rw [List.getD_range_map, if_pos hj]
    congr 1
    refine Finset.sum_congr rfl fun i hi => ?_
    simp [List.getD_eq_getElem?_getD,
      List.getElem?_take_of_lt (Finset.mem_range.mp hi)]

/-- Witness for C7: the empty input fails, and on one single-bin spectrum
with `n = 10` the mean over the selected frame is returned. -/
theorem c7_estimateNoiseVariance_correct_witness :
    GaussianDFTAudioDetector.estimateNoiseVariance ([] : List (List ℝ)) 10 =
      none ∧
    (GaussianDFTAudioDetector.noiseMean [[2]] 1).getD 0 0 =
      (∑ i in Finset.range 1,
        (((([[2]] : List (List ℝ)).take 1).getD i []).getD 0 0) ^ 2) /
        ((1 : ℕ) : ℝ) :=
  ⟨(c7_estimateNoiseVariance_correct [] 10).1.mpr (by simp),
   (c7_estimateNoiseVariance_correct [[2]] 10).2.2 1 0 (by simp [List.getD])⟩

theorem GaussianDFTAudioDetector.snrRec_length (alpha : ℝ) (sigmaN : List ℝ) :
    ∀ (rest : List (List ℝ)) (prev : List ℝ),
      (GaussianDFTAudioDetector.snrRec alpha sigmaN prev rest).length =
        rest.length
  | [], _ => rfl
  | f :: fs, prev => by
    simp [GaussianDFTAudioDetector.snrRec,
      GaussianDFTAudioDetector.snrRec_length alpha sigmaN fs]

/-- Each vector of the recursion tail is the step applied to the vector
just before it in the full (initial-vector-prepended) sequence. -/
theorem GaussianDFTAudioDetector.snrRec_getD (alpha : ℝ) (sigmaN : List ℝ) :
    ∀ (rest : List (List ℝ)) (prev : List ℝ) (m : ℕ), m < rest.length →
      (GaussianDFTAudioDetector.snrRec alpha sigmaN prev rest).getD m [] =
        GaussianDFTAudioDetector.snrStep alpha sigmaN
          ((prev :: GaussianDFTAudioDetector.snrRec alpha sigmaN prev rest).getD
            m [])
          (rest.getD m [])
  | [], prev, m, h => absurd h (by simp)
  | f :: fs, prev, 0, h => by
    simp [GaussianDFTAudioDetector.snrRec]
  | f :: fs, prev, m + 1, h => by
    have ih := GaussianDFTAudioDetector.snrRec_getD alpha sigmaN fs
      (GaussianDFTAudioDetector.snrStep alpha sigmaN prev f) m (by simpa using h)
    simpa [GaussianDFTAudioDetector.snrRec] using ih

/-- Claim C4: for non-empty spectra and `α ∈ (0,1)`, the SNR estimator
returns one vector per frame with `ξ[0][j] = max(y[0][j]²/σ − 1, 0)` and,
for `m ≥ 1`,
`ξ[m][j] = α·(sqrt(ξ[m−1][j]·σ)²/σ) + (1−α)·max(y[m][j]²/σ − 1, 0)`,
where `σ` is `sigmaN[j]` with a small positive epsilon substituted when
`sigmaN[j] = 0`. -/
theorem c4_estimatePrioriSNR_recursion (features : List (List ℝ))
    (sigmaN : List ℝ) (alpha : ℝ) (hne : features ≠ [])
    (h0 : 0 < alpha) (h1 : alpha < 1) :
    (GaussianDFTAudioDetector.estimatePrioriSNR features sigmaN alpha).length =
      features.length ∧
    (∀ j, j < (features.getD 0 []).length →
      ((GaussianDFTAudioDetector.estimatePrioriSNR features sigmaN
          alpha).getD 0 []).getD j 0 =
        max ((features.getD 0 []).getD j 0 ^ 2 /
          GaussianDFTAudioDetector.orEPS (sigmaN.getD j 0) - 1) 0) ∧
    (∀ m, 1 ≤ m → m < features.length →
      ∀ j, j < (features.getD m []).length →
        ((GaussianDFTAudioDetector.estimatePrioriSNR features sigmaN
            alpha).getD m []).getD j 0 =
          alpha * (Real.sqrt
              (((GaussianDFTAudioDetector.estimatePrioriSNR features sigmaN
                  alpha).getD (m - 1) []).getD j 0 *
                GaussianDFTAudioDetector.orEPS (sigmaN.getD j 0)) ^ 2 /
            GaussianDFTAudioDetector.orEPS (sigmaN.getD j 0)) +
          (1 - alpha) *
            max ((features.getD m []).getD j 0 ^ 2 /
              GaussianDFTAudioDetector.orEPS (sigmaN.getD j 0) - 1) 0) := by
  obtain ⟨f0, rest, rfl⟩ : ∃ f0 rest, features = f0 :: rest := by
    cases features with
    | nil => exact absurd rfl hne
    | cons a l => exact ⟨a, l, rfl⟩
  refine ⟨?_, ?_, ?_⟩
  · simp [GaussianDFTAudioDetector.estimatePrioriSNR,
      GaussianDFTAudioDetector.snrRec_length]
  · intro j hj
    simp only [GaussianDFTAudioDetector.estimatePrioriSNR, List.getD_cons_zero]
    simp only [List.getD_cons_zero] at hj
    unfold GaussianDFTAudioDetector.snrFirst
    rw [List.getD_range_map, if_pos hj]
  · intro m hm1 hm2 j hj
    cases m with
    | zero => omega
    | succ mp =>
      simp only [GaussianDFTAudioDetector.estimatePrioriSNR,
        List.getD_cons_succ, Nat.add_sub_cancel] at hj ⊢
      have hmp : mp < rest.length := by
        simpa [GaussianDFTAudioDetector.estimatePrioriSNR] using
          Nat.lt_of_succ_lt_succ (by simpa using hm2)
      rw [GaussianDFTAudioDetector.snrRec_getD alpha sigmaN rest
        (GaussianDFTAudioDetector.snrFirst f0 sigmaN) mp hmp]
      unfold GaussianDFTAudioDetector.snrStep
      rw [List.getD_range_map, if_pos hj]

/-- Witness for C4 at `features = [[1],[1]]`, `sigmaN = [1]`, `α = 1/2`,
frame `m = 1`, bin `j = 0`. -/
theorem c4_estimatePrioriSNR_recursion_witness :
    ((GaussianDFTAudioDetector.estimatePrioriSNR [[1], [1]] [1]
        (1/2)).getD 1 []).getD 0 0 =
      1/2 * (Real.sqrt
          (((GaussianDFTAudioDetector.estimatePrioriSNR [[1], [1]] [1]
              (1/2)).getD (1 - 1) []).getD 0 0 *
            GaussianDFTAudioDetector.orEPS (([1] : List ℝ).getD 0 0)) ^ 2 /
        GaussianDFTAudioDetector.orEPS (([1] : List ℝ).getD 0 0)) +
      (1 - 1/2) *
        max ((([[1], [1]] : List (List ℝ)).getD 1 []).getD 0 0 ^ 2 /
          GaussianDFTAudioDetector.orEPS (([1] : List ℝ).getD 0 0) - 1) 0 :=
  (c4_estimatePrioriSNR_recursion [[1], [1]] [1] (1/2) (by simp)
    (by norm_num) (by norm_num)).2.2 1 le_rfl (by norm_num) 0
    (by norm_num [List.getD])

/-- Claim C3: per frame `m`, the decision stage computes the average over
bins of `log(max((1/(1+xiJ))·exp(γ·xiJ/(1+xiJ)), ε))`, where
`σS = ξ[m][j]·sigmaN[j]` (raw product), `γ = y²/(sigmaN[j] || ε)` and
`xiJ = σS/(sigmaN[j] || ε)` are epsilon-substituted, and classifies the
frame as speech iff that average is strictly greater than
`log(threshold)`; the default threshold is `0.5`, applied in likelihood
space. -/
theorem c3_detectSpeech_decision (features xi : List (List ℝ))
    (sigmaN : List ℝ) (threshold : ℝ) (m : ℕ) (hm : m < features.length) :
    (GaussianDFTAudioDetector.detectSpeechLoop features xi sigmaN
        threshold).2.getD m 0 =
      (∑ j in Finset.range (features.getD m []).length,
        Real.log (max
          ((1 / (1 + (xi.getD m []).getD j 0 * sigmaN.getD j 0 /
              GaussianDFTAudioDetector.orEPS (sigmaN.getD j 0))) *
            Real.exp (((features.getD m []).getD j 0 ^ 2 /
                GaussianDFTAudioDetector.orEPS (sigmaN.getD j 0)) *
              ((xi.getD m []).getD j 0 * sigmaN.getD j 0 /
                GaussianDFTAudioDetector.orEPS (sigmaN.getD j 0)) /
              (1 + (xi.getD m []).getD j 0 * sigmaN.getD j 0 /
                GaussianDFTAudioDetector.orEPS (sigmaN.getD j 0))))
          Number.EPSILON)) / (features.getD m []).length ∧
    ((GaussianDFTAudioDetector.detectSpeechLoop features xi sigmaN
        threshold).1.getD m false = true ↔
      Real.log threshold <
        (GaussianDFTAudioDetector.detectSpeechLoop features xi sigmaN
          threshold).2.getD m 0) ∧
    GaussianDFTAudioDetector.defaultThreshold = 0.5 := by
  refine ⟨?_, ?_, rfl⟩
  · simp only [GaussianDFTAudioDetector.detectSpeechLoop,
      GaussianDFTAudioDetector.logLikelihoods, List.getD_range_map,
      if_pos hm, GaussianDFTAudioDetector.frameSumLogL,
      GaussianDFTAudioDetector.binL]
  · simp only [GaussianDFTAudioDetector.detectSpeechLoop,
      GaussianDFTAudioDetector.speechFrames,
      GaussianDFTAudioDetector.logLikelihoods, List.map_map,
      List.getD_range_map, if_pos hm, Function.comp]
    split
    · simp_all
    · simp_all

/-- Witness for C3: the classification iff at one concrete frame. -/
theorem c3_detectSpeech_decision_witness :
    (GaussianDFTAudioDetector.detectSpeechLoop [[1]] [[0]] [1]
        (1/2)).1.getD 0 false = true ↔
      Real.log (1/2) <
        (GaussianDFTAudioDetector.detectSpeechLoop [[1]] [[0]] [1]
          (1/2)).2.getD 0 0 :=
  (c3_detectSpeech_decision [[1]] [[0]] [1] (1/2) 0 (by norm_num)).2.1

/-- Claim C9: with spectra, SNR estimates and noise power fixed and
thresholds `0 < t1 ≤ t2`, every frame classified non-speech at `t1` is
also classified non-speech at `t2`, and the count of non-speech frames at
`t2` is at least the count at `t1`. -/
theorem c9_threshold_monotone (features xi : List (List ℝ))
    (sigmaN : List ℝ) (t1 t2 : ℝ) (ht1 : 0 < t1) (ht12 : t1 ≤ t2) :
    (∀ m, (GaussianDFTAudioDetector.speechFrames features xi sigmaN
        t1).getD m true = false →
      (GaussianDFTAudioDetector.speechFrames features xi sigmaN
        t2).getD m true = false) ∧
    (GaussianDFTAudioDetector.speechFrames features xi sigmaN
        t1).count false ≤
      (GaussianDFTAudioDetector.speechFrames features xi sigmaN
        t2).count false := by
  have hlog : Real.log t1 ≤ Real.log t2 := Real.log_le_log ht1 ht12
  set l := GaussianDFTAudioDetector.logLikelihoods features xi sigmaN with hl
  have hs : ∀ t : ℝ,
      GaussianDFTAudioDetector.speechFrames features xi sigmaN t =
        l.map fun a => if Real.log t < a then true else false := fun t => rfl
  constructor
  · intro m h1
    rw [hs] at h1 ⊢
    rw [List.getD_eq_getElem?_getD, List.getElem?_map] at h1
    rw [List.getD_eq_getElem?_getD, List.getElem?_map]
    cases hma : l[m]? with
    | none =>
      rw [hma] at h1
      simp at h1
    | some a =>
      rw [hma] at h1
      simp only [Option.map_some', Option.getD_some] at h1 ⊢
      by_cases hc : Real.log t2 < a
      · have hlt : Real.log t1 < a := lt_of_le_of_lt hlog hc
        rw [if_pos hlt] at h1
        exact absurd h1 (by simp)
      · rw [if_neg hc]
  · rw [hs, hs, List.count_eq_countP, List.count_eq_countP,
      List.countP_map, List.countP_map]
    apply List.countP_mono_left
    intro a _ ha
    simp only [Function.comp] at ha ⊢
    by_cases hc : Real.log t2 < a
    · have hlt : Real.log t1 < a := lt_of_le_of_lt hlog hc
      simp [hlt] at ha
    · simp [hc]

/-- Witness for C9 at thresholds `1/2 ≤ 1` on a one-frame input. -/
theorem c9_threshold_monotone_witness :
    (GaussianDFTAudioDetector.speechFrames [[1]] [[1]] [1]
        (1/2)).count false ≤
      (GaussianDFTAudioDetector.speechFrames [[1]] [[1]] [1] 1).count false :=
  (c9_threshold_monotone [[1]] [[1]] [1] (1/2) 1 (by norm_num)
    (by norm_num)).2

theorem GaussianDFTAudioDetector.snrFirst_getD_nonneg (frame sigmaN : List ℝ)
    (j : ℕ) : 0 ≤ (GaussianDFTAudioDetector.snrFirst frame sigmaN).getD j 0 := by
  unfold GaussianDFTAudioDetector.snrFirst
  rw [List.getD_range_map]
  split
  · exact le_max_right _ 0
  · exact le_refl 0

theorem GaussianDFTAudioDetector.snrStep_getD_nonneg (alpha : ℝ)
    (sigmaN prevXi frame : List ℝ) (h0 : 0 < alpha) (h1 : alpha < 1)
    (hsig : ∀ j, 0 ≤ sigmaN.getD j 0) (j : ℕ) :
    0 ≤ (GaussianDFTAudioDetector.snrStep alpha sigmaN prevXi frame).getD j 0 := by
  unfold GaussianDFTAudioDetector.snrStep
  rw [List.getD_range_map]
  split
  · refine add_nonneg (mul_nonneg h0.le (div_nonneg (sq_nonneg _)
      (GaussianDFTAudioDetector.orEPS_pos (hsig j)).le)) ?_
    exact mul_nonneg (by linarith) (le_max_right _ 0)
  · exact le_refl 0

/-- Claim C8, the pipeline's non-negativity invariant: every magnitude
returned by the transform is `≥ 0`, every bin of the noise power vector is
`≥ 0`, and, for `α ∈ (0,1)` and a non-negative noise power vector, every
a-priori SNR value `ξ[m][j]` is `≥ 0` (in particular `ξ[0][j] ≥ 0`). -/
theorem c8_nonneg_invariant :
    (∀ (x : List ℝ) (k : ℕ), 0 ≤ (FFT.forward x).getD k 0) ∧
    (∀ (features : List (List ℝ)) (k j : ℕ),
      0 ≤ (GaussianDFTAudioDetector.noiseMean features k).getD j 0) ∧
    (∀ (features : List (List ℝ)) (sigmaN : List ℝ) (alpha : ℝ),
      0 < alpha → alpha < 1 → (∀ j, 0 ≤ sigmaN.getD j 0) →
      ∀ m j, 0 ≤ ((GaussianDFTAudioDetector.estimatePrioriSNR features sigmaN
        alpha).getD m []).getD j 0) := by
  refine ⟨?_, ?_, ?_⟩
  · intro x k
    unfold FFT.forward
    rw [List.getD_range_map]
    split
    · exact Real.sqrt_nonneg _
    · exact le_refl 0
  · intro features k j
    unfold GaussianDFTAudioDetector.noiseMean
    rw [List.getD_range_map]
    split
    · exact div_nonneg (Finset.sum_nonneg fun i _ => sq_nonneg _)
        (Nat.cast_nonneg k)
    · exact le_refl 0
  · intro features sigmaN alpha h0 h1 hsig m j
    cases features with
    | nil =>
      simp [GaussianDFTAudioDetector.estimatePrioriSNR]
    | cons f0 rest =>
      cases m with
      | zero =>
        simp only [GaussianDFTAudioDetector.estimatePrioriSNR,
          List.getD_cons_zero]
        exact GaussianDFTAudioDetector.snrFirst_getD_nonneg f0 sigmaN j
      | succ mp =>
        simp only [GaussianDFTAudioDetector.estimatePrioriSNR,
          List.getD_cons_succ]
        by_cases hmp : mp < rest.length
        · rw [GaussianDFTAudioDetector.snrRec_getD alpha sigmaN rest
            (GaussianDFTAudioDetector.snrFirst f0 sigmaN) mp hmp]
          exact GaussianDFTAudioDetector.snrStep_getD_nonneg alpha sigmaN _ _
            h0 h1 hsig j
        · have hout : (GaussianDFTAudioDetector.snrRec alpha sigmaN
              (GaussianDFTAudioDetector.snrFirst f0 sigmaN) rest).getD mp [] =
                ([] : List ℝ) := by
            rw [List.getD_eq_getElem?_getD, List.getElem?_eq_none]
            · rfl
            · rw [GaussianDFTAudioDetector.snrRec_length]
              exact Nat.le_of_not_lt hmp
          rw [hout]
          simp

/-- Witness for C8 on concrete one-bin inputs. -/
theorem c8_nonneg_invariant_witness :
    0 ≤ (FFT.forward [1]).getD 0 0 ∧
    0 ≤ (GaussianDFTAudioDetector.noiseMean [[1]] 1).getD 0 0 ∧
    0 ≤ ((GaussianDFTAudioDetector.estimatePrioriSNR [[1]] [1]
        (1/2)).getD 0 []).getD 0 0 :=
  ⟨c8_nonneg_invariant.1 [1] 0,
   c8_nonneg_invariant.2.1 [[1]] 1 0,
   c8_nonneg_invariant.2.2 [[1]] [1] (1/2) (by norm_num) (by norm_num)
     (fun j => by cases j <;> simp [List.getD]) 0 0⟩

theorem FFT.replicate_getD_one (j : ℕ) (hj : j < 64) :
    (List.replicate 64 (1:ℝ)).getD j 0 = 1 := by
  rw [List.getD_eq_getElem?_getD, List.getElem?_replicate_of_lt hj]
  rfl

theorem FFT.forwardReal_ones :
    FFT.forwardReal (List.replicate 64 1) 0 = 65 := by
  unfold FFT.forwardReal
  simp only [List.length_replicate, Nat.cast_zero, mul_zero, zero_mul,
    zero_div, Real.cos_zero, mul_one, Nat.cast_ofNat]
  rw [Finset.sum_congr rfl fun j hj =>
    FFT.replicate_getD_one j (Finset.mem_range.mp hj)]
  rw [FFT.replicate_getD_one 0 (by norm_num)]
  simp
  norm_num

theorem FFT.forwardImag_ones :
    FFT.forwardImag (List.replicate 64 1) 0 = 0 := by
  unfold FFT.forwardImag
  simp [Real.sin_zero]

theorem FFT.dftReal_ones :
    FFT.dftReal (List.replicate 64 1) 0 = 64 := by
  unfold FFT.dftReal
  simp only [List.length_replicate, Nat.cast_zero, mul_zero, zero_mul,
    zero_div, Real.cos_zero, mul_one, Nat.cast_ofNat]
  rw [Finset.sum_congr rfl fun j hj =>
    FFT.replicate_getD_one j (Finset.mem_range.mp hj)]
  simp

theorem FFT.dftImag_ones :
    FFT.dftImag (List.replicate 64 1) 0 = 0 := by
  unfold FFT.dftImag
  simp [Real.sin_zero]

/-- Claim C5 states that the reference transform and the fast radix-2
transform agree on every bin within `1e-3` relative or `1e-4` absolute
tolerance for sizes including `N = 64`; on the all-ones frame of size 64
the reference gives `65` at bin 0 (the input sample is added into the real
accumulator) while the fast transform (the exact DFT) gives `64`, an error
of `1`, outside both tolerances. -/
theorem c5_reference_fast_divergence :
    (FFT.forward (List.replicate 64 1)).getD 0 0 = 65 ∧
    (FFT.fastForward (List.replicate 64 1)).getD 0 0 = 64 ∧
    ¬ FFT.closeTo ((FFT.forward (List.replicate 64 1)).getD 0 0)
        ((FFT.fastForward (List.replicate 64 1)).getD 0 0) := by
  have hfwd : (FFT.forward (List.replicate 64 1)).getD 0 0 = 65 := by
    unfold FFT.forward
    simp only [List.length_replicate]
    rw [List.getD_range_map, if_pos (by norm_num : (0:ℕ) < 64),
      FFT.forwardReal_ones, FFT.forwardImag_ones]
    rw [show (65:ℝ) ^ 2 + 0 ^ 2 = 65 ^ 2 by norm_num,
      Real.sqrt_sq (by norm_num : (0:ℝ) ≤ 65)]
  have hfast : (FFT.fastForward (List.replicate 64 1)).getD 0 0 = 64 := by
    unfold FFT.fastForward FFT.dftMagnitude
    simp only [List.length_replicate]
    rw [List.getD_range_map, if_pos (by norm_num : (0:ℕ) < 64),
      FFT.dftReal_ones, FFT.dftImag_ones]
    rw [show (64:ℝ) ^ 2 + 0 ^ 2 = 64 ^ 2 by norm_num,
      Real.sqrt_sq (by norm_num : (0:ℝ) ≤ 64)]
  refine ⟨hfwd, hfast, ?_⟩
  rw [hfwd, hfast]
  unfold FFT.closeTo
  push_neg
  constructor
  · rw [show |(65:ℝ) - 64| = 1 by rw [show (65:ℝ) - 64 = 1 by norm_num]; exact abs_one]
    norm_num
  · rw [show |(65:ℝ) - 64| = 1 by rw [show (65:ℝ) - 64 = 1 by norm_num]; exact abs_one,
      show |(65:ℝ)| = 65 from abs_of_pos (by norm_num),
      show |(64:ℝ)| = 64 from abs_of_pos (by norm_num),
      max_eq_left (by norm_num : (64:ℝ) ≤ 65)]
    norm_num
